import Mathlib

/-!
Verification development for the NeoFS S3 gateway authentication center
(`auth` package: `Center.packBearerToken`, `Center.unpackBearerToken`,
`Center.AuthenticationPassed`, `readAndKeepBody`).

Bytes are modelled as `Fin 256`; Go byte slices as `List (Fin 256)`.
External library primitives (zstd compression, RSA encryption, protobuf
marshalling, the AWS SigV4 signer) and the repository helpers whose source
is not in scope (`sha256Hash`, `encrypt`, `decrypt`,
`regexpSubmatcher.getSubmatches`) are modelled abstractly or from the
spec's description, as noted on each definition.
-/

namespace NeoFSAuth

abbrev Byte := Fin 256

abbrev Bytes := List Byte

/-- Lowercase hex digit for a value below 16, as Go `encoding/hex` emits
(`0`-`9` then `a`-`f`). -/
def hexDigitChar (n : Nat) : Char :=
  if n < 10 then Char.ofNat (48 + n) else Char.ofNat (87 + n)

/-- The two lowercase hex digits of one byte (Go `hex.EncodeToString`). -/
def hexEncodeByte (b : Byte) : List Char :=
  [hexDigitChar (b.val / 16), hexDigitChar (b.val % 16)]

/-- Go `hex.EncodeToString`: lowercase hex, two digits per byte. -/
def hexEncode (bs : Bytes) : String :=
  String.mk (bs.flatMap hexEncodeByte)

/-- Value of one hex digit; Go `hex.DecodeString` accepts both cases. -/
def hexCharVal (c : Char) : Option Nat :=
  if '0' ≤ c ∧ c ≤ '9' then some (c.toNat - 48)
  else if 'a' ≤ c ∧ c ≤ 'f' then some (c.toNat - 87)
  else if 'A' ≤ c ∧ c ≤ 'F' then some (c.toNat - 55)
  else none

/-- Go `hex.DecodeString` on a character list: fails on odd length or a
non-hex character. -/
def hexDecodeList : List Char → Option Bytes
  | [] => some []
  | [_] => none
  | c1 :: c2 :: rest =>
    match hexCharVal c1, hexCharVal c2, hexDecodeList rest with
    | some h, some l, some tl => some (⟨(h * 16 + l) % 256, Nat.mod_lt _ (by norm_num)⟩ :: tl)
    | _, _, _ => none

/-- Go `hex.DecodeString`. -/
def hexDecode (s : String) : Option Bytes :=
  hexDecodeList s.data

/-- A parsed `YYYYMMDDThhmmssZ` timestamp (the fields Go `time.Parse`
extracts with layout `20060102T150405Z`). -/
structure DateTime where
  year : Nat
  month : Nat
  day : Nat
  hour : Nat
  minute : Nat
  second : Nat
deriving DecidableEq

/-- Gregorian leap-year rule, as Go `time` applies it when validating a day. -/
def isLeapYear (y : Nat) : Bool :=
  y % 4 = 0 && (y % 100 ≠ 0 || y % 400 = 0)

/-- Number of days of a month, for Go `time.Parse`'s day-range validation. -/
def daysInMonth (y m : Nat) : Nat :=
  if m = 2 then (if isLeapYear y then 29 else 28)
  else if m = 4 ∨ m = 6 ∨ m = 9 ∨ m = 11 then 30
  else 31

/-- Decimal digit value of a character. -/
def digitVal (c : Char) : Option Nat :=
  if '0' ≤ c ∧ c ≤ '9' then some (c.toNat - 48) else none

/-- Two decimal digits as a number. -/
def twoDigits (a b : Char) : Option Nat := do
  let x ← digitVal a
  let y ← digitVal b
  pure (10 * x + y)

/-- Modelled from the spec: Go `time.Parse("20060102T150405Z", s)` is a
standard-library call; the spec (§4.2 step 5) requires the strict timestamp
format `YYYYMMDDThhmmssZ`, rejecting on any deviation. Field ranges follow
Go's validation: month 1–12, day 1–days-in-month, hour 0–23, minute and
second 0–59, with the literal `T` and `Z` separators. -/
def parseAmzDate (s : String) : Option DateTime :=
  match s.data with
  | [y1, y2, y3, y4, mo1, mo2, d1, d2, t, h1, h2, mi1, mi2, s1, s2, z] => do
    let yh ← twoDigits y1 y2
    let yl ← twoDigits y3 y4
    let mo ← twoDigits mo1 mo2
    let d ← twoDigits d1 d2
    let h ← twoDigits h1 h2
    let mi ← twoDigits mi1 mi2
    let sec ← twoDigits s1 s2
    let y := 100 * yh + yl
    if t = 'T' ∧ z = 'Z' ∧ 1 ≤ mo ∧ mo ≤ 12 ∧ 1 ≤ d ∧ d ≤ daysInMonth y mo ∧
        h ≤ 23 ∧ mi ≤ 59 ∧ sec ≤ 59 then
      some ⟨y, mo, d, h, mi, sec⟩
    else none
  | _ => none

/-- Drop a literal character sequence; `none` when the input does not start
with it. -/
def dropLit : List Char → List Char → Option (List Char)
  | [], s => some s
  | _ :: _, [] => none
  | c :: cs, d :: ds => if c = d then dropLit cs ds else none

/-- Position of the last occurrence of `pat` in `s`, if any. -/
def lastMatchPos (pat s : List Char) : Option Nat :=
  ((List.range (s.length + 1)).filter (fun i => pat.isPrefixOf (s.drop i))).getLast?

/-- Split `s` at the LAST occurrence of `pat` (the behaviour of a greedy
`.*` capture followed by the literal `pat`); `none` when `pat` does not
occur. -/
def splitLastOn (pat s : List Char) : Option (List Char × List Char) :=
  match lastMatchPos pat s with
  | none => none
  | some i => some (s.take i, s.drop (i + pat.length))

/-- The six named captures of `authorizationFieldRegexp`. -/
structure AuthHeaderCaptures where
  accessKeyID : String
  date : String
  region : String
  service : String
  signedHeaderFields : String
  v4Signature : String
deriving DecidableEq

/-- Modelled from the spec: `regexpSubmatcher.getSubmatches` is repository
code not under src/; per the spec (§4.2 step 3) the header is parsed
against the fixed grammar of `authorizationFieldRegexp`:
`AWS4-HMAC-SHA256 Credential=<access_key_id>/<date>/<region>/<service>/aws4_request, SignedHeaders=<list>, Signature=<hex>`,
with `access_key_id`, `date` and `service` nonempty slash-free runs,
`region` a possibly empty slash-free run, and the two final captures
greedy (`SignedHeaders` extends to the last `, Signature=` occurrence).
`none` models the missing-captures case (`len(sms) != 6`). -/
def parseAuthHeader (s : String) : Option AuthHeaderCaptures :=
  match dropLit "AWS4-HMAC-SHA256 Credential=".data s.data with
  | none => none
  | some r1 =>
    let (akid, r2) := r1.span (· ≠ '/')
    if akid.isEmpty then none else
    match r2 with
    | '/' :: r3 =>
      let (date, r4) := r3.span (· ≠ '/')
      if date.isEmpty then none else
      match r4 with
      | '/' :: r5 =>
        let (region, r6) := r5.span (· ≠ '/')
        match r6 with
        | '/' :: r7 =>
          let (service, r8) := r7.span (· ≠ '/')
          if service.isEmpty then none else
          match dropLit "/aws4_request, SignedHeaders=".data r8 with
          | none => none
          | some r9 =>
            match splitLastOn ", Signature=".data r9 with
            | none => none
            | some (shf, sig) =>
              some ⟨String.mk akid, String.mk date, String.mk region,
                String.mk service, String.mk shf, String.mk sig⟩
        | _ => none
      | _ => none
    | _ => none

/-- Splitting a character list on a separator character: always at least
one (possibly empty) piece. -/
def splitCharList (sep : Char) : List Char → List (List Char)
  | [] => [[]]
  | c :: rest =>
    if c = sep then [] :: splitCharList sep rest
    else
      match splitCharList sep rest with
      | [] => [[c]]
      | h :: t => (c :: h) :: t

/-- Go `strings.Split(s, sep)` for the one-character separator `";"` used
on the SignedHeaders capture: the substrings between separators, in
order; never the empty list (`Split("", ";")` is `[""]`). -/
def goSplit (s : String) (sep : Char) : List String :=
  (splitCharList sep s.data).map String.mk

/-- Go `strings.EqualFold` restricted to ASCII case folding (the header
names compared are ASCII). -/
def goEqualFold (a b : String) : Bool :=
  a.data.map Char.toLower == b.data.map Char.toLower

/-- Modelled from the spec: the byte-transform primitives the Center
composes (§2, §4.3). `sha256Hash`, `encrypt` and `decrypt` are repository
helpers not under src/; compression is the external zstd codec held by the
Center, marshalling is the external `BearerTokenMsg` protobuf codec, and
`sign` is the external AWS SigV4 signer (`v4.Signer.Sign`), which writes
the fresh `Authorization` header value it produces onto the reference
request. All are one-shot deterministic byte transforms per §4.3; the key
material is immutable after construction, so the public/private keys are
baked into `encrypt`/`decrypt` as the Center bakes them into its fields.
Fallible transforms return `Option`. -/
structure Prims (Token : Type) where
  marshal : Token → Option Bytes
  unmarshal : Bytes → Option Token
  compress : Bytes → Bytes
  decompress : Bytes → Option Bytes
  encrypt : Bytes → Option Bytes
  decrypt : Bytes → Option Bytes
  sha256 : Bytes → Bytes
  sign : String → String → List (String × List String) → Bytes →
    String → String → DateTime → Option String

/-- `Center.packBearerToken`: marshal the token, compress, encrypt with the
user-auth public key, hex-encode the ciphertext into the AccessKeyID; the
SecretAccessKey is the hex-encoded SHA-256 of the uncompressed,
unencrypted marshalled bytes. -/
def packBearerToken {Token : Type} (P : Prims Token) (bearerToken : Token) :
    Option (String × String) :=
  match P.marshal bearerToken with
  | none => none
  | some data =>
    match P.encrypt (P.compress data) with
    | none => none
    | some encryptedKeyID =>
      some (hexEncode encryptedKeyID, hexEncode (P.sha256 data))

/-- `Center.unpackBearerToken`: hex-decode the AccessKeyID, decrypt with
the user-auth private key, decompress, unmarshal; the SecretAccessKey is
recomputed as the hex-encoded SHA-256 of the decompressed bytes. -/
def unpackBearerToken {Token : Type} (P : Prims Token) (accessKeyID : String) :
    Option (Token × String) :=
  match hexDecode accessKeyID with
  | none => none
  | some encryptedKeyID =>
    match P.decrypt encryptedKeyID with
    | none => none
    | some compressedKeyID =>
      match P.decompress compressedKeyID with
      | none => none
      | some data =>
        match P.unmarshal data with
        | none => none
        | some bearerToken => some (bearerToken, hexEncode (P.sha256 data))

/-- An HTTP request as `AuthenticationPassed` consumes it: the URL query
values, the header map (keys in canonical MIME form, as `net/http` stores
them) and the body. A body is absent (`none`, Go `nil`), or a stream that
either yields its bytes or fails when read (Go `io.ReadCloser`). -/
structure Request where
  method : String
  urlPath : String
  query : List (String × String)
  headers : List (String × List String)
  body : Option (Except String Bytes)

/-- Go `url.Values.Get`: first value of the key, `""` when absent. -/
def queryGet (q : List (String × String)) (key : String) : String :=
  match q.find? (fun p => p.1 = key) with
  | some p => p.2
  | none => ""

/-- Go `http.Header` map indexing (`request.Header[key]`): the value slice,
empty when the key is absent. -/
def headerValues (hs : List (String × List String)) (key : String) : List String :=
  match hs.find? (fun h => h.1 = key) with
  | some h => h.2
  | none => []

/-- Go `http.Header.Get`: first value of the key, `""` when absent or
empty. -/
def headerGet (hs : List (String × List String)) (key : String) : String :=
  (headerValues hs key).headD ""

/-- What a downstream reader of the request obtains from its body: `some
bytes` (an absent body reads as no bytes), or `none` when reading fails. -/
def bodyRead (req : Request) : Option Bytes :=
  match req.body with
  | none => some []
  | some (Except.error _) => none
  | some (Except.ok bs) => some bs

/-- `readAndKeepBody`: a `nil` body yields an empty reader and leaves the
request untouched; otherwise the body is drained fully into memory, a
fresh reader over the same bytes is installed as the request's body, and
the captured bytes are returned. A failing read propagates the error. -/
def readAndKeepBody (req : Request) : Except String (Bytes × Request) :=
  match req.body with
  | none => Except.ok ([], req)
  | some (Except.error e) => Except.error e
  | some (Except.ok payload) =>
    Except.ok (payload, { req with body := some (Except.ok payload) })

/-- Lines 151–154 of `AuthenticationPassed`: the signed-header-name list,
rejected (`none`) when empty. -/
def checkSignedHeaderFields (names : List String) : Option (List String) :=
  if names.length = 0 then none else some names

/-- Lines 164–172 of `AuthenticationPassed`: the reference request's header
map keeps exactly the original headers whose name case-insensitively
matches one of the signed-header names (the Go double loop assigns
`otherRequest.Header[hfn] = hfvs` whenever `strings.EqualFold(hfn, shfn)`;
re-assigning the same key is idempotent, so the result is this filter). -/
def filterSignedHeaders (headers : List (String × List String))
    (names : List String) : List (String × List String) :=
  headers.filter (fun h => names.any (fun shfn => goEqualFold h.1 shfn))

/-- `Center.AuthenticationPassed`. Returns the Go function's value pair —
the bearer token pointer and the error, each possibly `nil` — together
with the request as the function leaves it (its body is restored after
draining; every other early return leaves the request as received).
The signature-comparison branch returns `(none, none)`: the Go source
returns `nil, errors.Wrap(err, "failed to pass authentication procedure")`
there, and `err` is necessarily `nil` at that point (a non-nil signing
error returned earlier), while `pkg/errors.Wrap(nil, msg)` is documented
to return `nil`. -/
def authenticationPassed {Token : Type} (P : Prims Token) (req : Request) :
    (Option Token × Option String) × Request :=
  if queryGet req.query "X-Amz-Algorithm" = "AWS4-HMAC-SHA256" then
    ((none, some "pre-signed form of request is not supported"), req)
  else
    let authHeaderField := headerValues req.headers "Authorization"
    if authHeaderField.length ≠ 1 then
      ((none, some "unsupported request: wrong length of Authorization header field"), req)
    else
      match parseAuthHeader (authHeaderField.headD "") with
      | none => ((none, some "bad Authorization header field"), req)
      | some sms1 =>
        match checkSignedHeaderFields (goSplit sms1.signedHeaderFields ';') with
        | none => ((none, some "wrong format of signed headers part"), req)
        | some signedHeaderFieldsNames =>
          match parseAmzDate (headerGet req.headers "X-Amz-Date") with
          | none => ((none, some "failed to parse x-amz-date header field"), req)
          | some signatureDateTime =>
            match unpackBearerToken P sms1.accessKeyID with
            | none => ((none, some "failed to unpack bearer token"), req)
            | some (bearerToken, secretAccessKey) =>
              let otherHeaders := filterSignedHeaders req.headers signedHeaderFieldsNames
              match readAndKeepBody req with
              | Except.error _ => ((none, some "failed to read out request body"), req)
              | Except.ok (body, req2) =>
                match P.sign sms1.accessKeyID secretAccessKey otherHeaders body
                    sms1.service sms1.region signatureDateTime with
                | none => ((none, some "failed to sign temporary HTTP request"), req2)
                | some newAuthHeader =>
                  let sig2 := match parseAuthHeader newAuthHeader with
                    | some sms2 => sms2.v4Signature
                    | none => ""
                  if sms1.v4Signature ≠ sig2 then
                    ((none, none), req2)
                  else
                    ((some bearerToken, none), req2)

/-- A concrete instantiation of the primitives, used to evaluate the
pipeline on explicit inputs: tokens are their own byte serialization and
every transform is the identity (all satisfy the §4.3 contracts), while
the signer returns a fixed well-formed Authorization header whose
signature is `deadbeef`. -/
def trivPrims : Prims Bytes where
  marshal := some
  unmarshal := some
  compress := id
  decompress := some
  encrypt := some
  decrypt := some
  sha256 := id
  sign := fun _ _ _ _ _ _ _ =>
    some "AWS4-HMAC-SHA256 Credential=01/20200101/us-east-1/s3/aws4_request, SignedHeaders=host, Signature=deadbeef"

/-- A request whose Authorization header is exactly what `trivPrims.sign`
re-computes: under `trivPrims` it authenticates. -/
def wellSignedRequest : Request where
  method := "GET"
  urlPath := "/bucket/object"
  query := []
  headers := [("Authorization",
    ["AWS4-HMAC-SHA256 Credential=01/20200101/us-east-1/s3/aws4_request, SignedHeaders=host, Signature=deadbeef"]),
    ("X-Amz-Date", ["20200101T000000Z"]), ("Host", ["example.com"])]
  body := none

/-- `wellSignedRequest` with the last character of its `Signature` field
flipped (`deadbeef` → `deadbeee`): the recomputed signature differs. -/
def flippedSigRequest : Request where
  method := "GET"
  urlPath := "/bucket/object"
  query := []
  headers := [("Authorization",
    ["AWS4-HMAC-SHA256 Credential=01/20200101/us-east-1/s3/aws4_request, SignedHeaders=host, Signature=deadbeee"]),
    ("X-Amz-Date", ["20200101T000000Z"]), ("Host", ["example.com"])]
  body := none

/-- A presigned-form request: its query selects `AWS4-HMAC-SHA256`, and its
Authorization header is garbage. -/
def presignedRequest : Request where
  method := "GET"
  urlPath := "/bucket/object"
  query := [("X-Amz-Algorithm", "AWS4-HMAC-SHA256")]
  headers := [("Authorization", ["not a well-formed header"])]
  body := none

/-- A request with no Authorization header at all. -/
def noAuthRequest : Request where
  method := "GET"
  urlPath := "/bucket/object"
  query := []
  headers := [("Host", ["example.com"])]
  body := none

/-- A request with an erased (`nil`) body. -/
def nilBodyRequest : Request where
  method := "PUT"
  urlPath := "/bucket/object"
  query := []
  headers := [("Host", ["example.com"])]
  body := none

theorem hexCharVal_hexDigitChar (n : Fin 16) : hexCharVal (hexDigitChar n.val) = some n.val := by
  revert n
  decide

theorem hexDecodeList_hexEncodeByte (b : Byte) (cs : List Char) :
    hexDecodeList (hexEncodeByte b ++ cs) =
      (hexDecodeList cs).map (fun tl => b :: tl) := by
  have hhi : hexCharVal (hexDigitChar (b.val / 16)) = some (b.val / 16) :=
    hexCharVal_hexDigitChar ⟨b.val / 16, Nat.div_lt_of_lt_mul (by omega)⟩
  have hlo : hexCharVal (hexDigitChar (b.val % 16)) = some (b.val % 16) :=
    hexCharVal_hexDigitChar ⟨b.val % 16, Nat.mod_lt _ (by norm_num)⟩
  have hval : (b.val / 16 * 16 + b.val % 16) % 256 = b.val := by
    have := Nat.div_add_mod b.val 16
    omega
  show hexDecodeList
      (hexDigitChar (b.val / 16) :: hexDigitChar (b.val % 16) :: cs) = _
  simp only [hexDecodeList, hhi, hlo]
  cases h : hexDecodeList cs with
  | none => rfl
  | some tl =>
    simp only [Option.map_some']
    congr 2
    exact Fin.ext hval

/-- Decoding inverts encoding byte-for-byte. -/
theorem hexDecode_hexEncode (bs : Bytes) : hexDecode (hexEncode bs) = some bs := by
  suffices h : ∀ l : Bytes, hexDecodeList (l.flatMap hexEncodeByte) = some l by
    simpa [hexDecode, hexEncode] using h bs
  intro l
  induction l with
  | nil => rfl
  | cons b tl ih =>
    simp only [List.flatMap_cons, hexDecodeList_hexEncodeByte, ih, Option.map_some']

/-- C2: for every bearer token `T` that serializes and packs successfully,
`unpackBearerToken` applied to the AccessKeyID produced by
`packBearerToken T` succeeds and returns the very same token — hence
bit-identical serialized bytes — and the same SecretAccessKey as pack
returned, provided the codec primitives satisfy their §4.3 round-trip
contracts (unmarshal inverts marshal, decrypt inverts encrypt, decompress
inverts compress). -/
theorem packUnpack_roundTrip {Token : Type} (P : Prims Token) (T : Token)
    (akid sk : String)
    (hpack : packBearerToken P T = some (akid, sk))
    (hum : ∀ t d, P.marshal t = some d → P.unmarshal d = some t)
    (hdec : ∀ b c, P.encrypt b = some c → P.decrypt c = some b)
    (hdcmp : ∀ b, P.decompress (P.compress b) = some b) :
    unpackBearerToken P akid = some (T, sk) := by
  unfold packBearerToken at hpack
  cases hm : P.marshal T with
  | none => rw [hm] at hpack; exact absurd hpack (by simp)
  | some data =>
    rw [hm] at hpack
    dsimp only at hpack
    cases he : P.encrypt (P.compress data) with
    | none => rw [he] at hpack; exact absurd hpack (by simp)
    | some enc =>
      rw [he] at hpack
      dsimp only at hpack
      have hp := Option.some.inj hpack
      have hak : akid = hexEncode enc := (congrArg Prod.fst hp).symm
      have hsk : sk = hexEncode (P.sha256 data) := (congrArg Prod.snd hp).symm
      unfold unpackBearerToken
      rw [hak, hexDecode_hexEncode]
      simp only [hdec _ _ he, hdcmp, hum T data hm, hsk]

/-- Witness for C2 at a concrete token and the concrete primitives. -/
theorem packUnpack_roundTrip_witness :
    unpackBearerToken trivPrims "05" = some ([(5 : Fin 256)], "05") :=
  packUnpack_roundTrip trivPrims [(5 : Fin 256)] "05" "05" (by decide)
    (fun t d h => by cases h; rfl)
    (fun b c h => by cases h; rfl)
    (fun b => rfl)

/-- C3: in both `packBearerToken` and `unpackBearerToken` the
SecretAccessKey equals the hex encoding of the SHA-256 hash of the
uncompressed, unencrypted serialized token bytes — in pack, of the
marshalled bytes before compression/encryption; in unpack, of the fully
decompressed bytes that unmarshal to the returned token. It is thereby a
pure deterministic function of those serialized bytes. -/
theorem secretAccessKey_fromSerializedBytes {Token : Type} (P : Prims Token) :
    (∀ T data akid sk, P.marshal T = some data →
      packBearerToken P T = some (akid, sk) → sk = hexEncode (P.sha256 data)) ∧
    (∀ akid t sk, unpackBearerToken P akid = some (t, sk) →
      ∃ data, P.unmarshal data = some t ∧ sk = hexEncode (P.sha256 data)) := by
  constructor
  · intro T data akid sk hm hpack
    unfold packBearerToken at hpack
    rw [hm] at hpack
    dsimp only at hpack
    cases he : P.encrypt (P.compress data) with
    | none => rw [he] at hpack; exact absurd hpack (by simp)
    | some enc =>
      rw [he] at hpack
      dsimp only at hpack
      exact (congrArg Prod.snd (Option.some.inj hpack)).symm
  · intro akid t sk hunp
    unfold unpackBearerToken at hunp
    cases hd : hexDecode akid with
    | none => rw [hd] at hunp; exact absurd hunp (by simp)
    | some encryptedKeyID =>
      rw [hd] at hunp; dsimp only at hunp
      cases hdec : P.decrypt encryptedKeyID with
      | none => rw [hdec] at hunp; exact absurd hunp (by simp)
      | some compressedKeyID =>
        rw [hdec] at hunp; dsimp only at hunp
        cases hdc : P.decompress compressedKeyID with
        | none => rw [hdc] at hunp; exact absurd hunp (by simp)
        | some data =>
          rw [hdc] at hunp; dsimp only at hunp
          cases hu : P.unmarshal data with
          | none => rw [hu] at hunp; exact absurd hunp (by simp)
          | some bearerToken =>
            rw [hu] at hunp; dsimp only at hunp
            have hp := Option.some.inj hunp
            exact ⟨data, by rw [hu]; exact congrArg (some ∘ Prod.fst) hp,
              (congrArg Prod.snd hp).symm⟩

/-- C9: `unpackBearerToken` is deterministic — with the key material fixed
inside the primitives, two calls on the same AccessKeyID that succeed
return the same token (hence bit-identical bytes) and the same
SecretAccessKey; and as an equation between the same pure function
applied twice, two failing calls agree trivially. -/
theorem unpack_deterministic {Token : Type} (P : Prims Token) (akid : String)
    (t1 t2 : Token) (s1 s2 : String)
    (h1 : unpackBearerToken P akid = some (t1, s1))
    (h2 : unpackBearerToken P akid = some (t2, s2)) :
    t1 = t2 ∧ s1 = s2 := by
  have h := Option.some.inj (h1.symm.trans h2)
  exact ⟨congrArg Prod.fst h, congrArg Prod.snd h⟩

/-- Witness for C9 at a concrete AccessKeyID. -/
theorem unpack_deterministic_witness :
    [(5 : Fin 256)] = [(5 : Fin 256)] ∧ "05" = "05" :=
  unpack_deterministic trivPrims "05" [(5 : Fin 256)] [(5 : Fin 256)] "05" "05"
    (by decide) (by decide)

/-- C10: for a request whose body is `nil`, `readAndKeepBody` does not
fail: it returns an empty reader (no bytes) and no error, leaving the
request as it was, so authentication proceeds with the empty payload as
the bytes to be signed. -/
theorem readAndKeepBody_nilBody (req : Request) (h : req.body = none) :
    readAndKeepBody req = Except.ok ([], req) := by
  unfold readAndKeepBody
  rw [h]

/-- Witness for C10 at a concrete bodyless request. -/
theorem readAndKeepBody_nilBody_witness :
    readAndKeepBody nilBodyRequest = Except.ok ([], nilBodyRequest) :=
  readAndKeepBody_nilBody nilBodyRequest rfl

/-- C8: the signed-header-list step of `AuthenticationPassed` (which
receives the result of splitting the SignedHeaders capture on `;`)
rejects whenever the list of signed-header names is empty. (Splitting with
`goSplit` never actually produces an empty list, so on split results this
guard is unreachable; the guard itself nonetheless rejects the empty
list.) -/
theorem emptySignedHeaderList_rejected (names : List String)
    (h : names.length = 0) : checkSignedHeaderFields names = none := by
  unfold checkSignedHeaderFields
  rw [if_pos h]

/-- Witness for C8 at the empty list. -/
theorem emptySignedHeaderList_rejected_witness :
    checkSignedHeaderFields ([] : List String) = none :=
  emptySignedHeaderList_rejected [] rfl

/-- C4: whenever the URL query carries `X-Amz-Algorithm=AWS4-HMAC-SHA256`,
`AuthenticationPassed` rejects with the unsupported-request error as its
first step, regardless of the request's headers (well-formed or not) and
leaving the request untouched. -/
theorem presigned_rejected {Token : Type} (P : Prims Token) (req : Request)
    (hq : queryGet req.query "X-Amz-Algorithm" = "AWS4-HMAC-SHA256") :
    authenticationPassed P req =
      ((none, some "pre-signed form of request is not supported"), req) := by
  unfold authenticationPassed
  rw [if_pos hq]

/-- Witness for C4 at a concrete presigned request with a garbage
Authorization header. -/
theorem presigned_rejected_witness :
    authenticationPassed trivPrims presignedRequest =
      ((none, some "pre-signed form of request is not supported"), presignedRequest) :=
  presigned_rejected trivPrims presignedRequest (by decide)

/-- C5: past the presigned check, `AuthenticationPassed` rejects whenever
the Authorization header value count differs from one — absent (zero
values) or repeated (more than one value) alike. -/
theorem authHeaderCount_rejected {Token : Type} (P : Prims Token) (req : Request)
    (hq : queryGet req.query "X-Amz-Algorithm" ≠ "AWS4-HMAC-SHA256")
    (hlen : (headerValues req.headers "Authorization").length ≠ 1) :
    authenticationPassed P req =
      ((none, some "unsupported request: wrong length of Authorization header field"), req) := by
  unfold authenticationPassed
  rw [if_neg hq, if_pos hlen]

/-- Witness for C5, once with the header absent and once with two header
values. -/
theorem authHeaderCount_rejected_witness :
    (authenticationPassed trivPrims noAuthRequest =
      ((none, some "unsupported request: wrong length of Authorization header field"),
        noAuthRequest)) ∧
    (authenticationPassed trivPrims
        { noAuthRequest with headers := [("Authorization", ["h1", "h2"])] } =
      ((none, some "unsupported request: wrong length of Authorization header field"),
        { noAuthRequest with headers := [("Authorization", ["h1", "h2"])] })) :=
  ⟨authHeaderCount_rejected trivPrims noAuthRequest (by decide) (by decide),
   authHeaderCount_rejected trivPrims _ (by decide) (by decide)⟩

/-- C6: the reference request's header map contains a header exactly when
it is a header of the original request whose name case-insensitively
equals one of the signed-header names — so every non-matching original
header is absent, and signed names with no matching original header
contribute nothing; matching headers keep their original values. -/
theorem referenceRequest_headers (headers : List (String × List String))
    (names : List String) (hfn : String) (hfvs : List String) :
    (hfn, hfvs) ∈ filterSignedHeaders headers names ↔
      ((hfn, hfvs) ∈ headers ∧ names.any (fun shfn => goEqualFold hfn shfn) = true) := by
  simp [filterSignedHeaders, List.mem_filter]

/-- When `readAndKeepBody` succeeds, the request it hands back has the
original method, URL, query and headers, and its restored body reads as
exactly the bytes the original body would have yielded. -/
theorem readAndKeepBody_frame (req : Request) (payload : Bytes) (req2 : Request)
    (h : readAndKeepBody req = Except.ok (payload, req2)) :
    req2.method = req.method ∧ req2.urlPath = req.urlPath ∧
      req2.query = req.query ∧ req2.headers = req.headers ∧
      bodyRead req2 = bodyRead req := by
  unfold readAndKeepBody at h
  cases hb : req.body with
  | none =>
    rw [hb] at h
    cases h
    exact ⟨rfl, rfl, rfl, rfl, rfl⟩
  | some ex =>
    cases ex with
    | error e => rw [hb] at h; exact absurd h (by simp)
    | ok bs =>
      rw [hb] at h
      dsimp only at h
      have hp := Except.ok.inj h
      have hreq2 : req2 = { req with body := some (Except.ok bs) } :=
        (congrArg Prod.snd hp).symm
      subst hreq2
      refine ⟨rfl, rfl, rfl, rfl, ?_⟩
      simp [bodyRead, hb]

/-- C7: authentication is transparent with respect to the request — the
request `AuthenticationPassed` leaves behind has the original method,
URL, query and headers, and reading its body yields exactly the bytes the
original body carried (the drained body is restored byte-identically; on
every early-rejection path the request is returned as received). -/
theorem authenticationPassed_frame {Token : Type} (P : Prims Token) (req : Request) :
    ((authenticationPassed P req).2.method = req.method ∧
      (authenticationPassed P req).2.urlPath = req.urlPath ∧
      (authenticationPassed P req).2.query = req.query ∧
      (authenticationPassed P req).2.headers = req.headers) ∧
    bodyRead (authenticationPassed P req).2 = bodyRead req := by
  unfold authenticationPassed
  repeat' (first | split | dsimp only)
  all_goals
    first
    | exact ⟨⟨rfl, rfl, rfl, rfl⟩, rfl⟩
    | · obtain ⟨h1, h2, h3, h4, h5⟩ := readAndKeepBody_frame req _ _ (by assumption)
        exact ⟨⟨h1, h2, h3, h4⟩, h5⟩

/-- C1: evaluation of the signature-comparison step on concrete input. A
correctly signed request authenticates and returns the bearer token; the
same request with one character of its `Signature` field flipped
(`deadbeef` → `deadbeee`) reaches the mismatch branch, which returns NO
error (`nil` token and `nil` error), because the Go source returns
`errors.Wrap(err, ...)` there with `err` necessarily `nil` — contradicting
the function's own purpose and error message, which call for rejecting
the request on mismatch. -/
theorem flippedSignature_acceptedWithoutError :
    (authenticationPassed trivPrims wellSignedRequest).1 =
      (some [(1 : Fin 256)], none) ∧
    (authenticationPassed trivPrims flippedSigRequest).1 = (none, none) := by
  constructor
  · decide
  · decide

end NeoFSAuth
